import Mathlib

/-!
Shallow embedding of the OLE object decoder in `oletools/oleobj.py`
(field readers `read_uint32`, `read_uint16`, `read_LengthPrefixedAnsiString`,
`read_zero_terminated_ansi_string`, record decoders `OleNativeStream.parse`
and `OleObject.parse`, and `sanitize_filename`), together with theorems
settling the specification claims about them.

Modelling conventions:
- a byte is a `Nat` (values 0..255 in well-formed inputs); byte strings are
  `List Nat`;
- the Python code reads either from a `bytes` buffer with an integer index
  or from a sequential stream (signalled by `index is None`); this is the
  `ByteSource` type below;
- a raised Python exception is an `Except.error` carrying a `PyErr`
  constructor naming the Python exception class that is raised; the code has
  no structured error values of its own;
- Python slices clamp (`pySlice`), single-byte indexing raises IndexError
  (`pyGet`), `struct.unpack` raises `struct.error` on a buffer whose size
  does not match the format (`unpack_uint32` / `unpack_uint16`), and a
  stream `read(n)` returns up to `n` bytes without error at end of data.
-/

deriving instance DecidableEq for Except

/-- The Python exceptions the decoder can raise, one constructor per
exception class.  None of them carries a field name or an offset. -/
inductive PyErr where
  /-- `struct.error`, raised by `struct.unpack` on a wrong-sized buffer. -/
  | structError
  /-- `AssertionError` from a failed `assert` statement. -/
  | assertionError
  /-- `ValueError`, from `bytes.index` finding no terminator (buffer mode)
  or the explicit `raise ValueError(...)` in stream mode. -/
  | valueError
  /-- `IndexError` from out-of-range single-byte indexing `data[k]`. -/
  | indexError
  /-- `IOError` from a raw stream read; never raised by the plain byte
  buffers and byte streams modelled here, but the decoder's `except`
  clause names it, so it is kept in the model. -/
  | ioError
  /-- `UnboundLocalError`: a local variable referenced before assignment. -/
  | unboundLocal
deriving DecidableEq

/-- The two kinds of byte source the Python readers accept: a `bytes`
buffer with a numeric index, or a sequential stream (the `index is None`
case in the source), modelled by the bytes not yet consumed. -/
inductive ByteSource where
  | buf (data : List Nat) (index : Nat)
  | stream (remaining : List Nat)
deriving DecidableEq

/-- Python slice `data[i:j]` for `0 ≤ i ≤ j`: clamps at the ends, never
raises. -/
def pySlice (data : List Nat) (i j : Nat) : List Nat :=
  (data.take j).drop i

/-- Python single-byte indexing `data[k]`: raises IndexError out of range. -/
def pyGet (data : List Nat) (k : Nat) : Except PyErr Nat :=
  match data.get? k with
  | some b => .ok b
  | none => .error .indexError

/-- `struct.Struct('<L').unpack`: little-endian uint32; `struct.error`
unless the buffer is exactly 4 bytes. -/
def unpack_uint32 (bs : List Nat) : Except PyErr Nat :=
  match bs with
  | [b0, b1, b2, b3] => .ok (b0 + b1 * 256 + b2 * 65536 + b3 * 16777216)
  | _ => .error .structError

/-- `struct.Struct('<H').unpack`: little-endian uint16; `struct.error`
unless the buffer is exactly 2 bytes. -/
def unpack_uint16 (bs : List Nat) : Except PyErr Nat :=
  match bs with
  | [b0, b1] => .ok (b0 + b1 * 256)
  | _ => .error .structError

/-- `read_uint32(data, index)`: buffer mode unpacks `data[index:index+4]`
and returns the advanced index; stream mode unpacks `data.read(4)` (which
returns fewer bytes at end of data, making `unpack` raise). -/
def read_uint32 (src : ByteSource) : Except PyErr (Nat × ByteSource) :=
  match src with
  | .buf data index =>
      match unpack_uint32 (pySlice data index (index + 4)) with
      | .ok v => .ok (v, .buf data (index + 4))
      | .error e => .error e
  | .stream rem =>
      match unpack_uint32 (rem.take 4) with
      | .ok v => .ok (v, .stream (rem.drop 4))
      | .error e => .error e

/-- `read_uint16(data, index)`: as `read_uint32` with 2 bytes. -/
def read_uint16 (src : ByteSource) : Except PyErr (Nat × ByteSource) :=
  match src with
  | .buf data index =>
      match unpack_uint16 (pySlice data index (index + 2)) with
      | .ok v => .ok (v, .buf data (index + 2))
      | .error e => .error e
  | .stream rem =>
      match unpack_uint16 (rem.take 2) with
      | .ok v => .ok (v, .stream (rem.drop 2))
      | .error e => .error e

/-- `read_LengthPrefixedAnsiString(data, index)`: reads a uint32 length
`L`; `L = 0` yields the empty string with no further bytes consumed.
Otherwise buffer mode takes `data[index:index+L-1]` as content, then reads
the terminator check byte from `data[index+L]` (the byte one past the `L`
consumed bytes, exactly as the source line `null_char = data[index+length]`
does) and advances the index by `L`; stream mode reads `L-1` content bytes
and then one terminator byte.  A check byte that is not the null byte
fails the `assert null_char == NULL_CHAR` (AssertionError); in buffer mode
the check-byte access itself can raise IndexError. -/
def read_LengthPrefixedAnsiString (src : ByteSource) :
    Except PyErr (List Nat × ByteSource) :=
  match read_uint32 src with
  | .error e => .error e
  | .ok (length, src1) =>
    if length = 0 then .ok ([], src1)
    else
      match src1 with
      | .buf data index =>
          let ansi := pySlice data index (index + (length - 1))
          match pyGet data (index + length) with
          | .error e => .error e
          | .ok nullc =>
              if nullc = 0 then .ok (ansi, .buf data (index + length))
              else .error .assertionError
      | .stream rem =>
          let ansi := rem.take (length - 1)
          let rem1 := rem.drop (length - 1)
          if rem1.take 1 = [0] then .ok (ansi, .stream (rem1.drop 1))
          else .error .assertionError

/-- `STR_MAX_LEN`, the maximum scan length for zero-terminated strings. -/
def STR_MAX_LEN : Nat := 1024

/-- Position of the first zero byte in a list, if any. -/
def findIdxZero : List Nat → Option Nat
  | [] => none
  | b :: rest => if b = 0 then some 0 else (findIdxZero rest).map (· + 1)

/-- The stream-mode loop of `read_zero_terminated_ansi_string`: up to
`fuel` iterations of reading one byte, stopping at a zero byte.  When the
loop runs out of iterations (or the stream runs dry, after which every
further 1-byte read returns nothing and the loop can only exhaust its
iterations), the Python code raises ValueError, modelled as `none`. -/
def scanStream : Nat → List Nat → Option (List Nat × List Nat)
  | 0, _ => none
  | _ + 1, [] => none
  | fuel + 1, b :: rest =>
      if b = 0 then some ([], rest)
      else (scanStream fuel rest).map (fun p => (b :: p.1, p.2))

/-- `read_zero_terminated_ansi_string(data, index)`: buffer mode searches
`data.index(b'\x00', index, index+STR_MAX_LEN)` — i.e. for a zero byte in
the window `[index, index+1024)` — returning `data[index:end_idx]` and the
index one past the terminator, and raising ValueError when the window has
no zero byte; stream mode loops reading single bytes. -/
def read_zero_terminated_ansi_string (src : ByteSource) :
    Except PyErr (List Nat × ByteSource) :=
  match src with
  | .buf data index =>
      match findIdxZero ((data.take (index + STR_MAX_LEN)).drop index) with
      | some off => .ok (pySlice data index (index + off), .buf data (index + off + 1))
      | none => .error .valueError
  | .stream rem =>
      match scanStream STR_MAX_LEN rem with
      | some (s, rest) => .ok (s, .stream rest)
      | none => .error .valueError

/-- The fields of an `OleNativeStream` record that precede `actual_size`,
in the order the decoder reads them. -/
structure NativeHeader where
  native_data_size : Option Nat
  unknown_short : Nat
  filename : List Nat
  src_path : List Nat
  unknown_long_1 : Nat
  unknown_long_2 : Nat
  temp_path : List Nat
deriving DecidableEq

/-- The decoded `OleNativeStream` record. `data = none` models the
link-only branch that sets `self.data = None`. -/
structure OleNativeRec where
  native_data_size : Option Nat
  unknown_short : Nat
  filename : List Nat
  src_path : List Nat
  unknown_long_1 : Nat
  unknown_long_2 : Nat
  temp_path : List Nat
  actual_size : Nat
  data : Option (List Nat)
deriving DecidableEq

/-- The prefix of `OleNativeStream.parse` up to (not including) the
`actual_size` read: optional `native_data_size` (absent when `package`),
`unknown_short`, `filename`, `src_path`, `unknown_long_1`,
`unknown_long_2`, `temp_path`.  Every read failure propagates. -/
def parseNativeHeader (package : Bool) (src0 : ByteSource) :
    Except PyErr (NativeHeader × ByteSource) := do
  let (nds, src1) ←
    if package then pure ((none : Option Nat), src0)
    else
      match read_uint32 src0 with
      | .ok (v, s) => pure (some v, s)
      | .error e => throw e
  let (ushort, src2) ← read_uint16 src1
  let (fname, src3) ← read_zero_terminated_ansi_string src2
  let (spath, src4) ← read_zero_terminated_ansi_string src3
  let (u1, src5) ← read_uint32 src4
  let (u2, src6) ← read_uint32 src5
  let (tpath, src7) ← read_zero_terminated_ansi_string src6
  pure (⟨nds, ushort, fname, spath, u1, u2, tpath⟩, src7)

/-- `OleNativeStream.parse`: header fields, then
`self.actual_size, index = read_uint32(data, index)` inside a
`try: ... except IOError, struct.error:` block.  In Python 2 that `except`
clause catches only `IOError` (and binds the caught exception to the name
`struct.error`), so only an `IOError` reaches the link-only branch that
sets `actual_size = 0` and `data = None`; a `struct.error` from an
exhausted source propagates.  On success, buffer mode stores the clamped
slice `data[index:index+actual_size]`, stream mode stores the stream's
remaining bytes (the source assigns the stream object itself). -/
def OleNativeStream.parse (package : Bool) (src : ByteSource) :
    Except PyErr OleNativeRec :=
  match parseNativeHeader package src with
  | .error e => .error e
  | .ok (hdr, src1) =>
    match read_uint32 src1 with
    | .ok (asize, src2) =>
        .ok ⟨hdr.native_data_size, hdr.unknown_short, hdr.filename,
             hdr.src_path, hdr.unknown_long_1, hdr.unknown_long_2,
             hdr.temp_path, asize,
             some (match src2 with
                   | .buf d i => pySlice d i (i + asize)
                   | .stream rem => rem)⟩
    | .error .ioError =>
        .ok ⟨hdr.native_data_size, hdr.unknown_short, hdr.filename,
             hdr.src_path, hdr.unknown_long_1, hdr.unknown_long_2,
             hdr.temp_path, 0, none⟩
    | .error e => .error e

/-- The decoded OLE 1.0 Object record.  The `data_size`, `data` and
`extra_data` attributes stay unset (`none`) for a linked object. -/
structure OleObjectRec where
  ole_version : Nat
  format_id : Nat
  class_name : List Nat
  topic_name : List Nat
  item_name : List Nat
  data_size : Option Nat
  data : Option (List Nat)
  extra_data : Option (List Nat)
deriving DecidableEq

/-- Reading a Python local variable: `none` is the unbound state, whose
read raises UnboundLocalError. -/
def pyLocal {α : Type} (v : Option α) : Except PyErr α :=
  match v with
  | some x => .ok x
  | none => .error .unboundLocal

def OleObject.TYPE_LINKED : Nat := 1

def OleObject.TYPE_EMBEDDED : Nat := 2

/-- `OleObject.parse(data)`.  Its first statement is
`self.ole_version, index = read_uint32(data, index)`, which evaluates the
local `index` before any assignment to it, so every call raises
UnboundLocalError; the rest of the body (kept here as the source has it:
version and format id, the format-id `assert`, three length-prefixed
names, and for an embedded object the size-checked payload plus trailing
bytes) is unreachable. -/
def OleObject.parse (data : List Nat) : Except PyErr OleObjectRec := do
  let index ← pyLocal (none : Option Nat)
  let (ole_version, s1) ← read_uint32 (ByteSource.buf data index)
  let (format_id, s2) ← read_uint32 s1
  if format_id = OleObject.TYPE_EMBEDDED ∨ format_id = OleObject.TYPE_LINKED then
    let (class_name, s3) ← read_LengthPrefixedAnsiString s2
    let (topic_name, s4) ← read_LengthPrefixedAnsiString s3
    let (item_name, s5) ← read_LengthPrefixedAnsiString s4
    if format_id = OleObject.TYPE_EMBEDDED then
      let (data_size, s6) ← read_uint32 s5
      let index6 := match s6 with
                    | ByteSource.buf _ i => i
                    | ByteSource.stream _ => 0
      let payload := pySlice data index6 (index6 + data_size)
      if payload.length = data_size then
        pure ⟨ole_version, format_id, class_name, topic_name, item_name,
              some data_size, some payload, some (data.drop (index6 + data_size))⟩
      else throw PyErr.assertionError
    else
      pure ⟨ole_version, format_id, class_name, topic_name, item_name,
            none, none, none⟩
  else throw PyErr.assertionError

/-! Filename sanitizer.  Strings are `List Char`; the Python 2 byte-string
regular expression `[^\w\.\- ]` whitelists ASCII alphanumerics, `_`, `.`,
`-` and the space. -/

/-- The whitespace characters `str.strip` removes. -/
def pyIsWSpace (ch : Char) : Bool :=
  ch == ' ' || ch == '\t' || ch == '\n' || ch == '\r' ||
  ch == '\x0b' || ch == '\x0c'

/-- Membership in the character class `[\w\.\- ]` of the byte-string
pattern (ASCII `\w`, dot, dash, space). -/
def isWhitelist (ch : Char) : Bool :=
  ch.isAlphanum || ch == '_' || ch == '.' || ch == '-' || ch == ' '

/-- `os.path.basename` (posix): everything after the last `/`. -/
def pyBasename (s : List Char) : List Char :=
  (s.reverse.takeWhile (fun ch => ch != '/')).reverse

/-- `str.strip()`: drop leading and trailing Python whitespace. -/
def pyStrip (s : List Char) : List Char :=
  ((s.dropWhile pyIsWSpace).reverse.dropWhile pyIsWSpace).reverse

/-- `re.sub(r'[^\w\.\- ]', replacement, s)` for a single replacement
character. -/
def pySub (replacement : Char) (s : List Char) : List Char :=
  s.map (fun ch => if isWhitelist ch then ch else replacement)

/-- One pass of Python `s.replace(cc, c)` for the two-character pattern
`cc`: scan left to right, replacing non-overlapping adjacent pairs of `c`
by a single `c`. -/
def pyReplacePair (c : Char) : List Char → List Char
  | [] => []
  | [a] => [a]
  | a :: b :: rest =>
      if a == c && b == c then c :: pyReplacePair c rest
      else a :: pyReplacePair c (b :: rest)

/-- Python `cc in s` for the two-character pattern: does `s` contain two
adjacent occurrences of `c`? -/
def hasPair (c : Char) : List Char → Bool
  | [] => false
  | [_] => false
  | a :: b :: rest => (a == c && b == c) || hasPair c (b :: rest)

/-- The `while cc in s: s = s.replace(cc, c)` loop, with explicit fuel;
each iteration with the pattern present strictly shrinks the string, so
`s.length` iterations always suffice. -/
def collapseIter (c : Char) : Nat → List Char → List Char
  | 0, s => s
  | fuel + 1, s =>
      if hasPair c s then collapseIter c fuel (pyReplacePair c s) else s

/-- The terminated `while` loop collapsing runs of `c`. -/
def collapsePair (c : Char) (s : List Char) : List Char :=
  collapseIter c s.length s

/-- The literal placeholder `'NONAME'`. -/
def nonameChars : List Char := ['N', 'O', 'N', 'A', 'M', 'E']

/-- `sanitize_filename(filename, replacement='_', max_length=200)`:
basename, strip, whitelist substitution, collapse `..` runs, collapse
double spaces, `'NONAME'` when the original `filename` is empty, truncate
to `max_length` (skipped when `max_length` is falsy, i.e. 0).  The Python
code computes the pipeline unconditionally and then overwrites the result
with `'NONAME'` when `len(filename) == 0`, which is folded into a single
conditional here. -/
def sanitize_filename (filename : List Char) (replacement : Char)
    (max_length : Nat) : List Char :=
  let sane :=
    if filename.length = 0 then nonameChars
    else collapsePair ' '
          (collapsePair '.' (pySub replacement (pyStrip (pyBasename filename))))
  if max_length = 0 then sane else sane.take max_length

/-! Concrete inputs used by the claim theorems. -/

/-- A package-mode native stream that ends exactly where `actual_size`
would begin: `unknown_short`, empty `filename`, empty `src_path`, the two
unknown longs, empty `temp_path` — and nothing after. -/
def linkOnlyBytes : List Nat :=
  [0, 0] ++ [0] ++ [0] ++ [1, 0, 0, 0] ++ [2, 0, 0, 0] ++ [0]

/-- A package-mode native stream declaring `actual_size = 10` with only
one payload byte (0xAA) remaining. -/
def truncPayloadBytes : List Nat :=
  [0, 0] ++ [0] ++ [0] ++ [1, 0, 0, 0] ++ [2, 0, 0, 0] ++ [0] ++
  [10, 0, 0, 0] ++ [170]

/-- A length-prefixed string with `L = 2` whose declared terminator byte
(byte `L-1` of the content, value 7) is not null, while the byte after it
is null: `02 00 00 00 41 07 00`. -/
def lpOffByOneBytes : List Nat := [2, 0, 0, 0, 65, 7, 0]

/-- An OLE 1.0 object header with `format_id = 3` followed by three
zero-length name strings. -/
def objBadFormatBytes : List Nat :=
  [1, 0, 0, 0] ++ [3, 0, 0, 0] ++ [0, 0, 0, 0] ++ [0, 0, 0, 0] ++ [0, 0, 0, 0]

/-- An embedded OLE 1.0 object (`format_id = 2`) with three zero-length
names, `data_size = 100` and only 3 payload bytes. -/
def objOversizeBytes : List Nat :=
  [1, 0, 0, 0] ++ [2, 0, 0, 0] ++ [0, 0, 0, 0] ++ [0, 0, 0, 0] ++
  [0, 0, 0, 0] ++ [100, 0, 0, 0] ++ [1, 2, 3]

/-- The sample filename `a/b!` used by the sanitizer witness. -/
def sampleName : List Char := ['a', '/', 'b', '!']

/-! Helper lemmas about the primitive readers. -/

theorem unpack_uint32_ok_length {bs : List Nat} {v : Nat}
    (h : unpack_uint32 bs = .ok v) : bs.length = 4 := by
  rcases bs with _ | ⟨a, _ | ⟨b, _ | ⟨c, _ | ⟨d, _ | ⟨e, t⟩⟩⟩⟩⟩ <;>
    simp [unpack_uint32] at h ⊢

theorem unpack_uint32_short {bs : List Nat} (h : bs.length ≠ 4) :
    unpack_uint32 bs = .error .structError := by
  rcases bs with _ | ⟨a, _ | ⟨b, _ | ⟨c, _ | ⟨d, _ | ⟨e, t⟩⟩⟩⟩⟩ <;>
    simp [unpack_uint32] at h ⊢

theorem unpack_uint16_short {bs : List Nat} (h : bs.length ≠ 2) :
    unpack_uint16 bs = .error .structError := by
  rcases bs with _ | ⟨a, _ | ⟨b, _ | ⟨c, t⟩⟩⟩ <;>
    simp [unpack_uint16] at h ⊢

theorem pySlice_length (data : List Nat) (i j : Nat) :
    (pySlice data i j).length = min j data.length - i := by
  simp [pySlice]

/-- C8 (corrected): on a buffer with fewer than 4 (resp. 2) bytes
remaining after the index, and on a stream with fewer than 4 (resp. 2)
bytes remaining, `read_uint32` (resp. `read_uint16`) fails by raising
`struct.error` — the bare exception from `struct.unpack`, carrying neither
a field name nor an offset — and returns no value/advanced index, so a
buffer caller's cursor is unchanged. -/
theorem C8_theorem (data : List Nat) (i : Nat) :
    (data.length < i + 4 →
      read_uint32 (ByteSource.buf data i) = .error PyErr.structError) ∧
    (data.length < i + 2 →
      read_uint16 (ByteSource.buf data i) = .error PyErr.structError) ∧
    (data.length < 4 →
      read_uint32 (ByteSource.stream data) = .error PyErr.structError) ∧
    (data.length < 2 →
      read_uint16 (ByteSource.stream data) = .error PyErr.structError) := by
  refine ⟨fun h => ?_, fun h => ?_, fun h => ?_, fun h => ?_⟩
  · have hl : (pySlice data i (i + 4)).length ≠ 4 := by
      rw [pySlice_length]; omega
    simp [read_uint32, unpack_uint32_short hl]
  · have hl : (pySlice data i (i + 2)).length ≠ 2 := by
      have : (pySlice data i (i + 2)).length = min (i + 2) data.length - i := by
        simp [pySlice]
      omega
    simp [read_uint16, unpack_uint16_short hl]
  · have hl : (data.take 4).length ≠ 4 := by simp; omega
    simp [read_uint32, unpack_uint32_short hl]
  · have hl : (data.take 2).length ≠ 2 := by simp; omega
    simp [read_uint16, unpack_uint16_short hl]

/-- C8 witness: the theorem applied to the 3-byte buffer `[5, 6, 7]` and
the 1-byte buffer `[5]`, as buffers and as streams. -/
theorem C8_witness :
    read_uint32 (ByteSource.buf [5, 6, 7] 0) = .error PyErr.structError ∧
    read_uint16 (ByteSource.buf [5] 0) = .error PyErr.structError ∧
    read_uint32 (ByteSource.stream [5, 6, 7]) = .error PyErr.structError ∧
    read_uint16 (ByteSource.stream [5]) = .error PyErr.structError :=
  ⟨(C8_theorem [5, 6, 7] 0).1 (by decide),
   (C8_theorem [5] 0).2.1 (by decide),
   (C8_theorem [5, 6, 7] 0).2.2.1 (by decide),
   (C8_theorem [5] 0).2.2.2 (by decide)⟩

/-- C8 counterexample: on the 3-byte buffer `[1, 2, 3]` (and the 1-byte
buffer `[9]` for `read_uint16`) the failure is the raised, unstructured
`struct.error` — the `PyErr.structError` constructor, which carries no
field name and no offset — not a structured `Truncated` error value
identifying the field and offset as the claim states. -/
theorem C8_counterexample :
    read_uint32 (ByteSource.buf [1, 2, 3] 0) = .error PyErr.structError ∧
    read_uint16 (ByteSource.buf [9] 0) = .error PyErr.structError := by
  exact ⟨by decide, by decide⟩

/-- C9 (confirmed): `OleObject.parse` evaluates the local `index` before
any assignment on its very first statement, so for every input it raises
UnboundLocalError and never produces a record. -/
theorem C9_theorem (data : List Nat) :
    OleObject.parse data = .error PyErr.unboundLocal := rfl

/-- C6 (code_bug): on a well-formed header with `format_id = 3`, the
decoder does not read `ole_version` and `format_id` and fail with a
structured `UnknownFormatId`; it raises UnboundLocalError before decoding
anything (see `OleObject.parse`). -/
theorem C6_theorem :
    OleObject.parse objBadFormatBytes = .error PyErr.unboundLocal := rfl

/-- C7 (code_bug): on an embedded object declaring `data_size = 100` with
only 3 payload bytes remaining, the decoder does not fail with
`SizeOutOfBounds` after reading the names; it raises UnboundLocalError
before decoding anything. -/
theorem C7_theorem :
    OleObject.parse objOversizeBytes = .error PyErr.unboundLocal := rfl

/-- C1 (code_bug): a native stream exhausted exactly where `actual_size`
would begin is not decoded as a link-only record with `actual_size = 0`;
the `struct.error` raised by the unpadded read propagates, because the
Python 2 clause `except IOError, struct.error:` catches only `IOError`.
This holds for the same bytes both as a finite buffer and as a stream. -/
theorem C1_theorem :
    OleNativeStream.parse true (ByteSource.buf linkOnlyBytes 0) =
      .error PyErr.structError ∧
    OleNativeStream.parse true (ByteSource.stream linkOnlyBytes) =
      .error PyErr.structError := by
  exact ⟨by decide, by decide⟩

/-- C3 (code_bug): for the buffer `02 00 00 00 41 07 00` the declared
terminator — byte `L-1 = 1` of the content, value 7 — is not null, so the
claim requires a `MalformedString` failure; buffer mode instead checks
`data[index+L]` (here 0) and accepts, returning content `A` — while
stream mode of the same function on the same bytes checks the correct
byte and raises AssertionError. -/
theorem C3_theorem :
    read_LengthPrefixedAnsiString (ByteSource.buf lpOffByOneBytes 0) =
      .ok ([65], ByteSource.buf lpOffByOneBytes 6) ∧
    read_LengthPrefixedAnsiString (ByteSource.stream lpOffByOneBytes) =
      .error PyErr.assertionError := by
  exact ⟨by decide, by decide⟩

/-! Helper lemmas about the pair-collapsing loop of the sanitizer. -/

theorem pyReplacePair_length_le (c : Char) :
    ∀ s : List Char, (pyReplacePair c s).length ≤ s.length
  | [] => by simp [pyReplacePair]
  | [a] => by simp [pyReplacePair]
  | a :: b :: rest => by
      simp only [pyReplacePair]
      split
      · have := pyReplacePair_length_le c rest
        simp only [List.length_cons]; omega
      · have := pyReplacePair_length_le c (b :: rest)
        simp only [List.length_cons] at *; omega

theorem hasPair_tail {c a : Char} {t : List Char}
    (h : hasPair c (a :: t) = false) : hasPair c t = false := by
  cases t with
  | nil => rfl
  | cons b r =>
      simp only [hasPair, Bool.or_eq_false_iff] at h
      exact h.2

theorem pyReplacePair_length_lt (c : Char) :
    ∀ s : List Char, hasPair c s = true → (pyReplacePair c s).length < s.length
  | [] => by simp [hasPair]
  | [a] => by simp [hasPair]
  | a :: b :: rest => by
      intro h
      simp only [pyReplacePair]
      split
      · have := pyReplacePair_length_le c rest
        simp only [List.length_cons]; omega
      · rename_i hcond
        have hrec : hasPair c (b :: rest) = true := by
          simp only [hasPair, Bool.or_eq_true] at h
          rcases h with h | h
          · exact absurd h (by simpa using hcond)
          · exact h
        have := pyReplacePair_length_lt c (b :: rest) hrec
        simp only [List.length_cons] at *; omega

theorem pyReplacePair_head? (c : Char) :
    ∀ s : List Char, (pyReplacePair c s).head? = s.head?
  | [] => rfl
  | [a] => rfl
  | a :: b :: rest => by
      simp only [pyReplacePair]
      split
      · rename_i hcond
        have : a = c := by
          simp only [Bool.and_eq_true, beq_iff_eq] at hcond
          exact hcond.1
        simp [this]
      · simp

theorem mem_pyReplacePair (c x : Char) :
    ∀ s : List Char, x ∈ pyReplacePair c s → x ∈ s
  | [] => by simp [pyReplacePair]
  | [a] => by simp [pyReplacePair]
  | a :: b :: rest => by
      intro hx
      simp only [pyReplacePair] at hx
      split at hx
      · rename_i hcond
        have hac : a = c := by
          simp only [Bool.and_eq_true, beq_iff_eq] at hcond
          exact hcond.1
        rcases List.mem_cons.1 hx with h | h
        · exact List.mem_cons.2 (Or.inl (h.trans hac.symm))
        · exact List.mem_cons.2 (Or.inr (List.mem_cons.2
            (Or.inr (mem_pyReplacePair c x rest h))))
      · rcases List.mem_cons.1 hx with h | h
        · exact List.mem_cons.2 (Or.inl h)
        · exact List.mem_cons.2 (Or.inr (mem_pyReplacePair c x (b :: rest) h))

theorem pyReplacePair_noPair_other {c d : Char} (hcd : c ≠ d) :
    ∀ s : List Char, hasPair d s = false →
      hasPair d (pyReplacePair c s) = false
  | [] => by simp [pyReplacePair, hasPair]
  | [a] => by simp [pyReplacePair, hasPair]
  | a :: b :: rest => by
      intro h
      have hpair : (a == d && b == d) = false ∧ hasPair d (b :: rest) = false := by
        simpa only [hasPair, Bool.or_eq_false_iff] using h
      simp only [pyReplacePair]
      split
      · have hrest : hasPair d (pyReplacePair c rest) = false :=
          pyReplacePair_noPair_other hcd rest (hasPair_tail hpair.2)
        cases hr : pyReplacePair c rest with
        | nil => simp [hasPair]
        | cons y ys =>
            rw [hr] at hrest
            simp only [hasPair, Bool.or_eq_false_iff]
            refine ⟨?_, hrest⟩
            simp [beq_eq_false_iff_ne, hcd]
      · have hrest : hasPair d (pyReplacePair c (b :: rest)) = false :=
          pyReplacePair_noPair_other hcd (b :: rest) hpair.2
        have hhead : (pyReplacePair c (b :: rest)).head? = some b := by
          rw [pyReplacePair_head? c (b :: rest)]; rfl
        cases hr : pyReplacePair c (b :: rest) with
        | nil => simp [hasPair]
        | cons y ys =>
            rw [hr] at hrest hhead
            have hyb : y = b := by simpa using hhead
            simp only [hasPair, Bool.or_eq_false_iff]
            exact ⟨by rw [hyb]; exact hpair.1, hrest⟩

theorem collapseIter_noPair (c : Char) :
    ∀ (fuel : Nat) (s : List Char), s.length ≤ fuel →
      hasPair c (collapseIter c fuel s) = false := by
  intro fuel
  induction fuel with
  | zero =>
      intro s hs
      have : s = [] := List.length_eq_zero.1 (Nat.le_zero.1 hs)
      subst this; rfl
  | succ n ih =>
      intro s hs
      simp only [collapseIter]
      cases hp : hasPair c s with
      | false => simpa using hp
      | true =>
          simp only [if_pos rfl]
          exact ih _ (by have := pyReplacePair_length_lt c s hp; omega)

theorem collapseIter_stable (c : Char) (fuel : Nat) {s : List Char}
    (h : hasPair c s = false) : collapseIter c fuel s = s := by
  cases fuel with
  | zero => rfl
  | succ n => simp [collapseIter, h]

theorem collapsePair_noPair (c : Char) (s : List Char) :
    hasPair c (collapsePair c s) = false :=
  collapseIter_noPair c s.length s le_rfl

theorem collapsePair_stable (c : Char) {s : List Char}
    (h : hasPair c s = false) : collapsePair c s = s :=
  collapseIter_stable c s.length h

theorem collapseIter_head? (c : Char) :
    ∀ (fuel : Nat) (s : List Char), (collapseIter c fuel s).head? = s.head? := by
  intro fuel
  induction fuel with
  | zero => intro s; rfl
  | succ n ih =>
      intro s
      simp only [collapseIter]
      cases hp : hasPair c s with
      | false => simp
      | true =>
          rw [if_pos rfl, ih, pyReplacePair_head?]

theorem mem_collapseIter (c x : Char) :
    ∀ (fuel : Nat) (s : List Char), x ∈ collapseIter c fuel s → x ∈ s := by
  intro fuel
  induction fuel with
  | zero => intro s h; exact h
  | succ n ih =>
      intro s
      simp only [collapseIter]
      cases hp : hasPair c s with
      | false => simp
      | true =>
          simp only [if_pos rfl]
          intro h
          exact mem_pyReplacePair c x s (ih _ h)

theorem collapseIter_noPair_other {c d : Char} (hcd : c ≠ d) :
    ∀ (fuel : Nat) (s : List Char), hasPair d s = false →
      hasPair d (collapseIter c fuel s) = false := by
  intro fuel
  induction fuel with
  | zero => intro s h; exact h
  | succ n ih =>
      intro s h
      simp only [collapseIter]
      cases hp : hasPair c s with
      | false => simpa using h
      | true =>
          simp only [if_pos rfl]
          exact ih _ (pyReplacePair_noPair_other hcd s h)

theorem hasPair_take (c : Char) :
    ∀ (n : Nat) (s : List Char), hasPair c s = false →
      hasPair c (s.take n) = false
  | 0, s, _ => by simp [hasPair]
  | n + 1, [], _ => by simp [hasPair]
  | n + 1, [a], _ => by
      simp only [List.take_succ_cons, List.take_nil]
      rfl
  | n + 1, a :: b :: rest, h => by
      have hpair : (a == c && b == c) = false ∧ hasPair c (b :: rest) = false := by
        simpa only [hasPair, Bool.or_eq_false_iff] using h
      cases n with
      | zero => simp [List.take_succ_cons, hasPair]
      | succ m =>
          have hrec := hasPair_take c (m + 1) (b :: rest) hpair.2
          simp only [List.take_succ_cons] at hrec ⊢
          simp only [hasPair, Bool.or_eq_false_iff]
          exact ⟨hpair.1, hrec⟩

/-! Helper lemmas about strip, basename and the sanitizer's output shape. -/

theorem takeWhile_all {p : Char → Bool} :
    ∀ {l : List Char}, (∀ x ∈ l, p x = true) → l.takeWhile p = l
  | [], _ => rfl
  | x :: t, h => by
      have hx : p x = true := h x (List.mem_cons_self x t)
      simp only [List.takeWhile_cons, hx, if_true]
      exact congrArg (x :: ·) (takeWhile_all fun y hy => h y (List.mem_cons_of_mem x hy))

theorem dropWhile_head?_false (p : Char → Bool) :
    ∀ (l : List Char) {a : Char}, (l.dropWhile p).head? = some a → p a = false
  | [], a, h => by simp [List.dropWhile] at h
  | x :: t, a, h => by
      by_cases hx : p x = true
      · rw [List.dropWhile_cons, if_pos hx] at h
        exact dropWhile_head?_false p t h
      · rw [List.dropWhile_cons, if_neg hx] at h
        simp only [List.head?_cons, Option.some.injEq] at h
        subst h
        simpa using hx

theorem dropWhile_eq_self_of_head (p : Char → Bool) :
    ∀ (l : List Char), (∀ a, l.head? = some a → p a = false) →
      l.dropWhile p = l
  | [], _ => rfl
  | x :: t, h => by
      have hx : p x = false := h x rfl
      simp [List.dropWhile_cons, hx]

theorem map_eq_self_of_mem {f : Char → Char} :
    ∀ {l : List Char}, (∀ x ∈ l, f x = x) → l.map f = l
  | [], _ => rfl
  | x :: t, h => by
      simp only [List.map_cons, h x (List.mem_cons_self x t)]
      exact congrArg (x :: ·) (map_eq_self_of_mem fun y hy => h y (List.mem_cons_of_mem x hy))

theorem head?_of_prefix {l₁ l₂ : List Char} {a : Char} (h : l₁ <+: l₂)
    (ha : l₁.head? = some a) : l₂.head? = some a := by
  rcases h with ⟨r, rfl⟩
  cases l₁ with
  | nil => simp at ha
  | cons x t => simpa using ha

theorem wspace_whitelist {ch : Char} (hw : isWhitelist ch = true)
    (hs : pyIsWSpace ch = true) : ch = ' ' := by
  have hs' : ch = ' ' ∨ ch = '\t' ∨ ch = '\n' ∨ ch = '\r' ∨
      ch = '\x0b' ∨ ch = '\x0c' := by
    simp only [pyIsWSpace, Bool.or_eq_true, beq_iff_eq] at hs
    tauto
  rcases hs' with h | h | h | h | h | h
  · exact h
  all_goals (subst h; exact absurd hw (by decide))

theorem pyStrip_head? {s : List Char} {a : Char}
    (h : (pyStrip s).head? = some a) : pyIsWSpace a = false := by
  unfold pyStrip at h
  have hsuff : (s.dropWhile pyIsWSpace).reverse.dropWhile pyIsWSpace <:+
      (s.dropWhile pyIsWSpace).reverse := List.dropWhile_suffix _
  have hpre : ((s.dropWhile pyIsWSpace).reverse.dropWhile pyIsWSpace).reverse <+:
      s.dropWhile pyIsWSpace := by
    have h2 := List.reverse_prefix.2 hsuff
    simpa using h2
  have ht : (s.dropWhile pyIsWSpace).head? = some a := head?_of_prefix hpre h
  exact dropWhile_head?_false pyIsWSpace s ht

theorem head?_take {l : List Char} {n : Nat} (hn : n ≠ 0) :
    (l.take n).head? = l.head? := by
  cases n with
  | zero => exact absurd rfl hn
  | succ m => cases l <;> simp

/-- Every character of a sanitized name (default arguments) lies in the
whitelist `[\w\.\- ]`. -/
theorem sanitize_mem_whitelist (x : List Char) {a : Char}
    (h : a ∈ sanitize_filename x '_' 200) : isWhitelist a = true := by
  simp only [sanitize_filename] at h
  rw [if_neg (by decide : ¬(200 = 0))] at h
  have h' := List.take_subset _ _ h
  by_cases hx : x.length = 0
  · rw [if_pos hx] at h'
    simp only [nonameChars, List.mem_cons, List.not_mem_nil, or_false] at h'
    rcases h' with rfl | rfl | rfl | rfl | rfl | rfl <;> decide
  · rw [if_neg hx] at h'
    simp only [collapsePair] at h'
    have h2 := mem_collapseIter ' ' a _ _ h'
    have h3 := mem_collapseIter '.' a _ _ h2
    simp only [pySub, List.mem_map] at h3
    obtain ⟨b, _, rfl⟩ := h3
    by_cases hb : isWhitelist b = true
    · simp [hb]
    · simp only [Bool.not_eq_true] at hb
      simp only [hb, Bool.false_eq_true, if_false]
      decide

/-- The head of a sanitized name (default arguments) is never a space. -/
theorem sanitize_head_ne_space (x : List Char) {a : Char}
    (h : (sanitize_filename x '_' 200).head? = some a) : a ≠ ' ' := by
  simp only [sanitize_filename] at h
  rw [if_neg (by decide : ¬(200 = 0)), head?_take (by decide : (200 : Nat) ≠ 0)] at h
  by_cases hx : x.length = 0
  · rw [if_pos hx] at h
    simp only [nonameChars, List.head?_cons, Option.some.injEq] at h
    subst h; decide
  · rw [if_neg hx] at h
    simp only [collapsePair, collapseIter_head?] at h
    simp only [pySub, List.head?_map] at h
    cases hb : (pyStrip (pyBasename x)).head? with
    | none => rw [hb] at h; simp at h
    | some b =>
        rw [hb] at h
        simp at h
        have hbw : pyIsWSpace b = false := pyStrip_head? hb
        have hbs : b ≠ ' ' := by
          intro hb'; subst hb'; exact absurd hbw (by decide)
        subst h
        by_cases hw : isWhitelist b = true
        · simpa [hw]
        · simp only [Bool.not_eq_true] at hw
          simp [hw]

/-- A sanitized name (default arguments) contains no two adjacent dots. -/
theorem sanitize_noPair_dot (x : List Char) :
    hasPair '.' (sanitize_filename x '_' 200) = false := by
  simp only [sanitize_filename]
  rw [if_neg (by decide : ¬(200 = 0))]
  apply hasPair_take
  by_cases hx : x.length = 0
  · rw [if_pos hx]; decide
  · rw [if_neg hx]
    simp only [collapsePair]
    exact collapseIter_noPair_other (by decide : (' ' : Char) ≠ '.') _ _
      (collapseIter_noPair '.' _ _ le_rfl)

/-- A sanitized name (default arguments) contains no two adjacent spaces. -/
theorem sanitize_noPair_space (x : List Char) :
    hasPair ' ' (sanitize_filename x '_' 200) = false := by
  simp only [sanitize_filename]
  rw [if_neg (by decide : ¬(200 = 0))]
  apply hasPair_take
  by_cases hx : x.length = 0
  · rw [if_pos hx]; decide
  · rw [if_neg hx]
    simp only [collapsePair]
    exact collapseIter_noPair ' ' _ _ le_rfl

/-- A sanitized name (default arguments) has at most 200 characters. -/
theorem sanitize_length_le (x : List Char) :
    (sanitize_filename x '_' 200).length ≤ 200 := by
  simp only [sanitize_filename]
  rw [if_neg (by decide : ¬(200 = 0))]
  simp [List.length_take]

/-- A sanitized name (default arguments) is non-empty whenever the
stripped basename of the input is non-empty. -/
theorem sanitize_ne_nil_of_basepath (x : List Char)
    (h : pyStrip (pyBasename x) ≠ []) : sanitize_filename x '_' 200 ≠ [] := by
  by_cases hx : x.length = 0
  · exfalso
    apply h
    have : x = [] := List.length_eq_zero.1 hx
    subst this; rfl
  · intro hcon
    have hh : (sanitize_filename x '_' 200).head? = none := by
      rw [hcon]; rfl
    rw [show sanitize_filename x '_' 200 =
        ((if x.length = 0 then nonameChars
          else collapsePair ' '
            (collapsePair '.' (pySub '_' (pyStrip (pyBasename x))))).take 200)
      from by simp [sanitize_filename]] at hh
    rw [head?_take (by decide : (200 : Nat) ≠ 0), if_neg hx] at hh
    simp only [collapsePair, collapseIter_head?] at hh
    simp only [pySub, List.head?_map] at hh
    cases hb : (pyStrip (pyBasename x)).head? with
    | none => exact h (List.head?_eq_none_iff.1 hb)
    | some b => rw [hb] at hh; simp at hh

theorem mem_of_head? {l : List Char} {a : Char} (h : l.head? = some a) :
    a ∈ l := by
  cases l with
  | nil => simp at h
  | cons x t =>
      simp only [List.head?_cons, Option.some.injEq] at h
      subst h
      exact List.mem_cons_self x t

/-- A string of whitelisted characters with no leading or trailing space,
no adjacent dots, no adjacent spaces and length at most 200 passes through
`sanitize_filename` (default arguments) unchanged. -/
theorem sanitize_stable (y : List Char)
    (hne : y ≠ [])
    (hwl : ∀ a ∈ y, isWhitelist a = true)
    (hhead : y.head? ≠ some ' ')
    (hlast : y.getLast? ≠ some ' ')
    (hd : hasPair '.' y = false)
    (hs : hasPair ' ' y = false)
    (hlen : y.length ≤ 200) :
    sanitize_filename y '_' 200 = y := by
  have hbase : pyBasename y = y := by
    unfold pyBasename
    rw [takeWhile_all fun a ha => ?_, List.reverse_reverse]
    have haw : isWhitelist a = true := hwl a (List.mem_reverse.1 ha)
    have : a ≠ '/' := by
      intro h'; subst h'; exact absurd haw (by decide)
    simpa using this
  have hhead' : ∀ a, y.head? = some a → pyIsWSpace a = false := by
    intro a ha
    have haw : isWhitelist a = true := hwl a (mem_of_head? ha)
    by_contra hws
    have hws' : pyIsWSpace a = true := by
      simpa using hws
    have : a = ' ' := wspace_whitelist haw hws'
    subst this
    exact hhead ha
  have hlast' : ∀ a, y.reverse.head? = some a → pyIsWSpace a = false := by
    intro a ha
    have ham : a ∈ y := List.mem_reverse.1 (mem_of_head? ha)
    have haw : isWhitelist a = true := hwl a ham
    by_contra hws
    have hws' : pyIsWSpace a = true := by
      simpa using hws
    have : a = ' ' := wspace_whitelist haw hws'
    subst this
    rw [List.head?_reverse] at ha
    exact hlast ha
  have hstrip : pyStrip y = y := by
    unfold pyStrip
    rw [dropWhile_eq_self_of_head _ _ hhead',
        dropWhile_eq_self_of_head _ _ hlast', List.reverse_reverse]
  have hsub : pySub '_' y = y :=
    map_eq_self_of_mem fun a ha => by simp [hwl a ha]
  simp only [sanitize_filename]
  rw [if_neg (by decide : ¬(200 = 0)),
      if_neg (by simpa [List.length_eq_zero] using hne),
      hbase, hstrip, hsub, collapsePair_stable '.' hd,
      collapsePair_stable ' ' hs]
  exact List.take_of_length_le hlen

/-- C5 (corrected): for every input, `sanitize_filename` (default
arguments) yields a name with no `/` or `\`, no two adjacent dots, equal
to the `NONAME` placeholder when the input is empty, and non-empty
whenever the stripped basename of the input is non-empty.  (The original
claim's unconditional non-emptiness fails: see the counterexample.) -/
theorem C5_theorem (x : List Char) :
    '/' ∉ sanitize_filename x '_' 200 ∧
    '\\' ∉ sanitize_filename x '_' 200 ∧
    hasPair '.' (sanitize_filename x '_' 200) = false ∧
    (pyStrip (pyBasename x) ≠ [] → sanitize_filename x '_' 200 ≠ []) ∧
    (x = [] → sanitize_filename x '_' 200 = nonameChars) := by
  refine ⟨?_, ?_, sanitize_noPair_dot x, sanitize_ne_nil_of_basepath x, ?_⟩
  · intro hmem
    exact absurd (sanitize_mem_whitelist x hmem) (by decide)
  · intro hmem
    exact absurd (sanitize_mem_whitelist x hmem) (by decide)
  · intro hx; subst hx; decide

/-- C5 witness: the theorem applied to the input `a/b!`, whose sanitized
form `b_` is non-empty and clean. -/
theorem C5_witness :
    '/' ∉ sanitize_filename sampleName '_' 200 ∧
    '\\' ∉ sanitize_filename sampleName '_' 200 ∧
    hasPair '.' (sanitize_filename sampleName '_' 200) = false ∧
    sanitize_filename sampleName '_' 200 ≠ [] :=
  ⟨(C5_theorem sampleName).1,
   (C5_theorem sampleName).2.1,
   (C5_theorem sampleName).2.2.1,
   (C5_theorem sampleName).2.2.2.1 (by decide)⟩

/-- C5 counterexample: the input `/` is non-empty, so the `NONAME`
override does not fire, its basename is empty, and the sanitized result
is the empty string — contradicting the claimed unconditional
non-emptiness. -/
theorem C5_counterexample : sanitize_filename ['/'] '_' 200 = [] := by decide

/-- C10 (corrected): `sanitize_filename` (default arguments) never
returns more than 200 characters, and it is idempotent on every input
whose sanitized result is non-empty and does not end with a space.  (The
original unconditional idempotence fails: see the counterexample.) -/
theorem C10_theorem (x : List Char)
    (h1 : sanitize_filename x '_' 200 ≠ [])
    (h2 : (sanitize_filename x '_' 200).getLast? ≠ some ' ') :
    sanitize_filename (sanitize_filename x '_' 200) '_' 200 =
      sanitize_filename x '_' 200 ∧
    (sanitize_filename x '_' 200).length ≤ 200 := by
  refine ⟨?_, sanitize_length_le x⟩
  apply sanitize_stable
  · exact h1
  · exact fun a ha => sanitize_mem_whitelist x ha
  · intro hh
    exact (sanitize_head_ne_space x hh) rfl
  · exact h2
  · exact sanitize_noPair_dot x
  · exact sanitize_noPair_space x
  · exact sanitize_length_le x

/-- C10 witness: the theorem applied to `ab`, which sanitizes to itself. -/
theorem C10_witness :
    sanitize_filename ['a', 'b'] '_' 200 ≠ [] ∧
    (sanitize_filename ['a', 'b'] '_' 200).getLast? ≠ some ' ' ∧
    (sanitize_filename (sanitize_filename ['a', 'b'] '_' 200) '_' 200 =
        sanitize_filename ['a', 'b'] '_' 200 ∧
      (sanitize_filename ['a', 'b'] '_' 200).length ≤ 200) :=
  ⟨by decide, by decide, C10_theorem ['a', 'b'] (by decide) (by decide)⟩

/-- C10 counterexample: sanitizing `/` yields the empty string, and
sanitizing that yields `NONAME`, so `sanitize_filename` is not idempotent
as claimed. -/
theorem C10_counterexample :
    sanitize_filename (sanitize_filename ['/'] '_' 200) '_' 200 ≠
      sanitize_filename ['/'] '_' 200 := by decide

/-! Lemmas for the zero-terminated reader and the native-stream payload. -/

theorem findIdxZero_append (content : List Nat) (rest : List Nat)
    (h : (0 : Nat) ∉ content) :
    findIdxZero (content ++ 0 :: rest) = some content.length := by
  induction content with
  | nil => simp [findIdxZero]
  | cons a t ih =>
      have ha : ¬(a = 0) := by
        intro h'; exact h (h' ▸ List.mem_cons_self a t)
      have ht : (0 : Nat) ∉ t := fun hm => h (List.mem_cons_of_mem a hm)
      simp [findIdxZero, ha, ih ht]

/-- C4 (corrected): a zero-terminated string whose content (no zero
bytes) has length at most 1023 — so that its terminator lies inside the
scan window `[index, index+1024)` — is decoded exactly: the reader
returns the bytes before the terminator and advances the cursor to one
past it.  (Content length exactly 1024 fails: see the counterexample.) -/
theorem C4_theorem (pre content post : List Nat) (h0 : (0 : Nat) ∉ content)
    (hlen : content.length ≤ 1023) :
    read_zero_terminated_ansi_string
        (ByteSource.buf (pre ++ content ++ 0 :: post) pre.length) =
      .ok (content, ByteSource.buf (pre ++ content ++ 0 :: post)
        (pre.length + content.length + 1)) := by
  have hassoc : pre ++ content ++ 0 :: post = pre ++ (content ++ 0 :: post) :=
    List.append_assoc pre content (0 :: post)
  have hwin : ((pre ++ content ++ 0 :: post).take (pre.length + STR_MAX_LEN)).drop pre.length
      = content ++ 0 :: post.take (STR_MAX_LEN - content.length - 1) := by
    rw [hassoc, ← List.take_drop, List.drop_left,
        List.take_append_eq_append_take,
        List.take_of_length_le
          (show content.length ≤ STR_MAX_LEN by simp only [STR_MAX_LEN]; omega)]
    congr 1
    have hk : STR_MAX_LEN - content.length =
        (STR_MAX_LEN - content.length - 1) + 1 := by
      simp only [STR_MAX_LEN] at *; omega
    rw [hk, List.take_succ_cons]
    simp
  have hfind : findIdxZero
      (((pre ++ content ++ 0 :: post).take (pre.length + STR_MAX_LEN)).drop pre.length)
      = some content.length := by
    rw [hwin]
    exact findIdxZero_append content _ h0
  have hslice : pySlice (pre ++ content ++ 0 :: post) pre.length
      (pre.length + content.length) = content := by
    unfold pySlice
    rw [hassoc, ← List.take_drop, List.drop_left]
    exact List.take_left content (0 :: post)
  simp only [read_zero_terminated_ansi_string, hfind, hslice]

/-- C4 witness: the theorem applied to the buffer `09 41 42 00 07` at
index 1 (content `AB`, terminator at offset 3). -/
theorem C4_witness :
    (0 : Nat) ∉ ([65, 66] : List Nat) ∧ ([65, 66] : List Nat).length ≤ 1023 ∧
    read_zero_terminated_ansi_string
        (ByteSource.buf ([9] ++ [65, 66] ++ 0 :: [7]) 1) =
      .ok ([65, 66], ByteSource.buf ([9] ++ [65, 66] ++ 0 :: [7]) 4) :=
  ⟨by decide, by decide, C4_theorem [9] [65, 66] [7] (by decide) (by decide)⟩

theorem findIdxZero_replicate (n : Nat) :
    findIdxZero (List.replicate n 65) = none := by
  induction n with
  | zero => rfl
  | succ m ih => simp [List.replicate_succ, findIdxZero, ih]

/-- C4 counterexample: a valid zero-terminated string of content length
exactly 1024 (1024 copies of `A`, then the null byte) — within the
claim's "at most 1024" bound — is rejected: the terminator at offset 1024
lies outside the scan window `[0, 1024)`, so the reader raises
ValueError. -/
theorem C4_counterexample :
    read_zero_terminated_ansi_string
        (ByteSource.buf (List.replicate 1024 65 ++ [0]) 0) =
      .error PyErr.valueError := by
  have hwin : ((List.replicate 1024 (65 : Nat) ++ [0]).take (0 + STR_MAX_LEN)).drop 0
      = List.replicate 1024 (65 : Nat) := by
    rw [List.drop_zero]
    have h1024 : 0 + STR_MAX_LEN = (List.replicate 1024 (65 : Nat)).length := by
      rw [List.length_replicate]
      simp [STR_MAX_LEN]
    rw [h1024, List.take_left]
  simp only [read_zero_terminated_ansi_string, hwin, findIdxZero_replicate]

theorem read_uint32_buf_ok {data : List Nat} {i a : Nat} {src : ByteSource}
    (h : read_uint32 (ByteSource.buf data i) = .ok (a, src)) :
    i + 4 ≤ data.length := by
  cases hu : unpack_uint32 (pySlice data i (i + 4)) with
  | ok v =>
      have h4 := unpack_uint32_ok_length hu
      rw [pySlice_length] at h4
      omega
  | error e =>
      have herr : read_uint32 (ByteSource.buf data i) = .error e := by
        simp [read_uint32, hu]
      rw [herr] at h
      exact absurd h (by simp)

/-- C2 (corrected): whenever the header fields decode and 4 more bytes
remain for `actual_size = a`, `OleNativeStream.parse` on a finite buffer
always succeeds, returning as payload the clamped slice
`data[index:index+a]`, whose length is `min a (remaining)`: a declared
size exceeding the remaining bytes silently truncates the payload, and no
size-versus-remaining validation failure exists. -/
theorem C2_theorem (package : Bool) (data : List Nat) (hdr : NativeHeader)
    (i a : Nat)
    (h1 : parseNativeHeader package (ByteSource.buf data 0) =
      .ok (hdr, ByteSource.buf data i))
    (h2 : read_uint32 (ByteSource.buf data i) =
      .ok (a, ByteSource.buf data (i + 4))) :
    OleNativeStream.parse package (ByteSource.buf data 0) =
      .ok ⟨hdr.native_data_size, hdr.unknown_short, hdr.filename,
           hdr.src_path, hdr.unknown_long_1, hdr.unknown_long_2,
           hdr.temp_path, a, some (pySlice data (i + 4) (i + 4 + a))⟩ ∧
    (pySlice data (i + 4) (i + 4 + a)).length = min a (data.length - (i + 4)) := by
  constructor
  · simp only [OleNativeStream.parse, h1, h2]
  · have hle : i + 4 ≤ data.length := read_uint32_buf_ok h2
    rw [pySlice_length]
    omega

/-- C2 witness: the theorem applied to `truncPayloadBytes`, where
`actual_size = 10` but one byte remains: parsing succeeds with the
one-byte payload `[0xAA]` (`min 10 1 = 1`). -/
theorem C2_witness :
    OleNativeStream.parse true (ByteSource.buf truncPayloadBytes 0) =
      .ok ⟨none, 0, [], [], 1, 2, [], 10,
           some (pySlice truncPayloadBytes 17 27)⟩ ∧
    (pySlice truncPayloadBytes 17 27).length =
      min 10 (truncPayloadBytes.length - 17) :=
  C2_theorem true truncPayloadBytes ⟨none, 0, [], [], 1, 2, []⟩ 13 10
    (by decide) (by decide)

/-- C2 counterexample: on `truncPayloadBytes` (declared `actual_size = 10`,
one payload byte remaining) the decoder neither fails nor returns a
payload of the declared length: it succeeds with the silently truncated
1-byte payload `[0xAA]`. -/
theorem C2_counterexample :
    OleNativeStream.parse true (ByteSource.buf truncPayloadBytes 0) =
      .ok ⟨none, 0, [], [], 1, 2, [], 10, some [170]⟩ ∧
    ([170] : List Nat).length ≠ 10 :=
  ⟨by decide, by decide⟩
